import Mathlib

/-
Verification of the journal-entry analysis program (src/analyze_je.py).

The program is a single linear pandas pipeline: numeric coercion of the
Debit/Credit columns with NaN filled by zero, whitespace-stripping of
string columns, a Benford first-digit analysis over the pooled positive
amounts, and a source-distribution pie chart restricted to the top ten
sources.

Shallow embedding choices:
* A spreadsheet cell is `Cell`: a numeric amount, a raw string, or a
  missing value (pandas NaN).  Amounts are exact decimals `m / 10 ^ e`,
  carried as a pair `(m : Int, e : Nat)`; the program manipulates them as
  floats, whose decimal string form is what the Benford step scans.
* `pd.to_numeric(col, errors='coerce')` becomes `to_numeric`, returning
  `none` for NaN; `.fillna(0)` becomes `Option.getD (0, 0)`.
* `astype(str)` on a positive amount becomes `pyRepr`, the plain decimal
  rendering `"123.0"`, `"1.23"`, `"0.05"` (Python prints some magnitudes
  in scientific form, whose mantissa starts with the same significant
  digit, so the extracted first digit is unaffected).
* `.str.lstrip('0.')` drops every leading `'0'` or `'.'` character, and
  `.str[0].astype(int)` reads the first remaining character as a digit
  (`none` models the ValueError raised on a non-digit).
* Digit recursion (`m ↦ m / 10`) is written with an explicit fuel equal
  to `m` itself so that every definition computes by kernel reduction.
-/

namespace AnalyzeJE

/-- A spreadsheet cell as the pandas frame holds it: a numeric amount
with exact decimal value `m / 10 ^ e`, a raw string, or a missing value
(NaN). -/
inductive Cell where
  | num (m : ℤ) (e : ℕ)
  | str (s : List Char)
  | missing
deriving DecidableEq

/-- Exact rational value of the decimal amount `m / 10 ^ e`. -/
def decValue (m : ℤ) (e : ℕ) : ℚ := (m : ℚ) / 10 ^ e

/-- Is the character an ASCII decimal digit? -/
def isDigitChar (c : Char) : Bool := decide ('0' ≤ c) && decide (c ≤ '9')

/-- Numeric value of an ASCII digit character. -/
def charVal (c : Char) : ℕ := c.toNat - 48

/-- Natural number denoted by a list of digit characters. -/
def natOfChars (cs : List Char) : ℕ := cs.foldl (fun a c => a * 10 + charVal c) 0

/-- Parse an unsigned decimal literal `digits[.digits]` into `(m, e)` with
value `m / 10 ^ e`; `none` on anything else (models the strings
`pd.to_numeric(..., errors='coerce')` turns into NaN). -/
def parseUnsigned (cs : List Char) : Option (ℕ × ℕ) :=
  let ip := cs.takeWhile isDigitChar
  let rest := cs.dropWhile isDigitChar
  if ip.isEmpty then none
  else
    match rest with
    | [] => some (natOfChars ip, 0)
    | '.' :: fs =>
        if fs.all isDigitChar then
          some (natOfChars ip * 10 ^ fs.length + natOfChars fs, fs.length)
        else none
    | _ => none

/-- Parse an optionally negated decimal literal. -/
def parseNumber (cs : List Char) : Option (ℤ × ℕ) :=
  match cs with
  | '-' :: rest => (parseUnsigned rest).map (fun p => (-(p.1 : ℤ), p.2))
  | _ => (parseUnsigned cs).map (fun p => ((p.1 : ℤ), p.2))

/-- `pd.to_numeric(cell, errors='coerce')` (src/analyze_je.py lines 26-27):
numeric cells pass through, parseable strings are converted, everything
else (missing values, unparseable strings) becomes NaN (`none`). -/
def to_numeric (c : Cell) : Option (ℤ × ℕ) :=
  match c with
  | .num m e => some (m, e)
  | .str s => parseNumber s
  | .missing => none

/-- The cleaned numeric value of a cell: `to_numeric` followed by
`.fillna(0)` (src/analyze_je.py lines 26-31). -/
def clean_amount (c : Cell) : ℤ × ℕ := (to_numeric c).getD (0, 0)

/-- The cleaned cell stored back into the column. -/
def cleanCell (c : Cell) : Cell := Cell.num (clean_amount c).1 (clean_amount c).2

/-- The cleaning step applied to a whole Debit/Credit column. -/
def cleanColumn (col : List Cell) : List Cell := col.map cleanCell

/-- The numeric values of a cleaned Debit/Credit column. -/
def columnValues (col : List Cell) : List (ℤ × ℕ) := col.map clean_amount

/-- Whitespace test used by `.str.strip()`. -/
def isSpaceChar (c : Char) : Bool := c == ' ' || c == '\t' || c == '\n' || c == '\r'

/-- `.str.strip()`: drop leading and trailing whitespace. -/
def stripChars (cs : List Char) : List Char :=
  ((cs.dropWhile isSpaceChar).reverse.dropWhile isSpaceChar).reverse

/-- Most significant decimal digit, with explicit fuel (the recursion is
`m ↦ m / 10`, so fuel `m` always suffices). -/
def msdAux : ℕ → ℕ → ℕ
  | 0, m => m
  | fuel + 1, m => if m < 10 then m else msdAux fuel (m / 10)

/-- Most significant decimal digit of `m`. -/
def msd (m : ℕ) : ℕ := msdAux m m

/-- ASCII character of a decimal digit. -/
def digitChar (k : ℕ) : Char := Char.ofNat (48 + k)

/-- Decimal digit characters of `m`, most significant first, with
explicit fuel. -/
def natCharsAux : ℕ → ℕ → List Char
  | 0, _ => []
  | fuel + 1, m =>
      if m < 10 then [digitChar m]
      else natCharsAux fuel (m / 10) ++ [digitChar (m % 10)]

/-- Decimal digit characters of `m`, most significant first. -/
def natChars (m : ℕ) : List Char := natCharsAux m m

/-- `astype(str)` on the positive amount `m / 10 ^ e`: the plain decimal
rendering Python gives a float, always containing a decimal point
(`"123.0"`, `"1.23"`, `"0.05"`). -/
def pyRepr (m e : ℕ) : List Char :=
  if e = 0 then natChars m ++ ['.', '0']
  else if e < (natChars m).length then
    (natChars m).take ((natChars m).length - e)
      ++ '.' :: (natChars m).drop ((natChars m).length - e)
  else '0' :: '.' :: (List.replicate (e - (natChars m).length) '0' ++ natChars m)

/-- The character class stripped by `.str.lstrip('0.')`. -/
def isZeroDot (c : Char) : Bool := c == '0' || c == '.'

/-- `.str.lstrip('0.')` (src/analyze_je.py line 63). -/
def lstripZeroDot (cs : List Char) : List Char := cs.dropWhile isZeroDot

/-- `int(c)` on a single character: its value when it is a digit,
`none` (ValueError) otherwise. -/
def charDigit? (c : Char) : Option ℕ := if isDigitChar c then some (charVal c) else none

/-- First-digit extraction of src/analyze_je.py line 63 applied to the
amount `m / 10 ^ e`: stringify, strip leading zeros and dots, read the
first character as an integer. -/
def firstDigit? (m e : ℕ) : Option ℕ :=
  (lstripZeroDot (pyRepr m e)).head?.bind charDigit?

/-- `df['Credit'].abs()` on a decimal amount. -/
def absAmount (p : ℤ × ℕ) : ℤ × ℕ := (|p.1|, p.2)

/-- `pd.concat([df['Debit'], df['Credit'].abs()])` (line 58). -/
def all_amounts (debits credits : List (ℤ × ℕ)) : List (ℤ × ℕ) :=
  debits ++ credits.map absAmount

/-- `all_amounts[all_amounts > 0]` (line 59). -/
def positiveAmounts (l : List (ℤ × ℕ)) : List (ℤ × ℕ) :=
  l.filter (fun p => 0 < decValue p.1 p.2)

/-- The Benford sample of leading digits (lines 58-63): pool debits with
absolute credits, keep the positive ones, extract each first digit. -/
def first_digits (debits credits : List (ℤ × ℕ)) : List ℕ :=
  (positiveAmounts (all_amounts debits credits)).filterMap
    (fun p => firstDigit? p.1.toNat p.2)

/-- Observed frequency of digit `d` as the report reads it out of
`benford_df` (lines 66-79 and 138-142): count divided by sample size
when the digit occurs, else the `fillna(0)` default. -/
def observed_freq (s : List ℕ) (d : ℕ) : ℚ :=
  if d ∈ s then (s.count d : ℚ) / s.length else 0

/-- The per-digit observed column of the report's Benford table, digits
1 through 9 (lines 136-142). -/
def benfordObservedRows (s : List ℕ) : List (ℕ × ℚ) :=
  ((List.range 9).map (fun i => i + 1)).map (fun d => (d, observed_freq s d))

/-- What the program writes for the Benford section: unconditionally the
per-digit table (there is no empty-sample branch anywhere in
src/analyze_je.py). -/
def codeBenfordReport (s : List ℕ) : Option (List (ℕ × ℚ)) :=
  some (benfordObservedRows s)

/-- Modelled from the spec: the required explicit "no data" report for an
empty Benford sample is absent from src/analyze_je.py, which always
writes the per-digit table; here `none` is the explicit no-data outcome
the spec demands, and `some` the ordinary table. -/
def specBenfordReport (s : List ℕ) : Option (List (ℕ × ℚ)) :=
  if s = [] then none else some (benfordObservedRows s)

/-- `astype(str)` on a whole cell of an object column (lines 34-36);
Python renders a missing value (float NaN) as the string `"nan"`. -/
def astypeStr (c : Cell) : List Char :=
  match c with
  | .num m e => if m < 0 then '-' :: pyRepr m.natAbs e else pyRepr m.toNat e
  | .str s => s
  | .missing => ['n', 'a', 'n']

/-- The string-cleaning step `df[col].astype(str).str.strip()`. -/
def cleanStrCell (c : Cell) : List Char := stripChars (astypeStr c)

/-- Expected Benford frequency `np.log10(1 + 1/d)` (lines 71-72). -/
noncomputable def expected_freq (d : ℕ) : ℝ := Real.logb 10 (1 + 1 / (d : ℝ))

/-- Descending-count order used by `value_counts()`. -/
def cntGE (a b : String × ℕ) : Prop := b.2 ≤ a.2

instance : DecidableRel cntGE := fun a b => Nat.decLe b.2 a.2

instance : IsTotal (String × ℕ) cntGE := ⟨fun a b => Nat.le_total b.2 a.2⟩

instance : IsTrans (String × ℕ) cntGE := ⟨fun _ _ _ h1 h2 => le_trans h2 h1⟩

/-- `df['Source'].value_counts()` (line 53): one entry per distinct
source with its occurrence count, sorted by descending count (stably, in
first-appearance order). -/
def source_counts (srcs : List String) : List (String × ℕ) :=
  List.insertionSort cntGE ((srcs.dedup).map (fun s => (s, srcs.count s)))

/-- Label assignment on a pandas Series with unique index labels
(line 102): when the label already exists its value is overwritten;
otherwise the entry is appended at the end. -/
def setLabel (l : List (String × ℕ)) (key : String) (v : ℕ) : List (String × ℕ) :=
  if l.any (fun p => p.1 == key) then
    l.map (fun p => if p.1 == key then (p.1, v) else p)
  else l ++ [(key, v)]

/-- The pie-chart data (lines 96-104): with more than ten distinct
sources, the ten largest, with the sum of the remaining counts assigned
to the label `"Other"` (overwriting a top-ten source that is itself
named `"Other"`); otherwise the full frequency table. -/
def plot_data (srcs : List String) : List (String × ℕ) :=
  if 10 < (source_counts srcs).length then
    setLabel ((source_counts srcs).take 10) "Other"
      ((((source_counts srcs).drop 10).map Prod.snd).sum)
  else source_counts srcs

/-- Sixteen journal entries among whose sources a top-ten source is
literally named "Other": five entries from a source called "Other" plus
eleven singleton sources. -/
def sourcesWithOtherName : List String :=
  ["Other", "Other", "Other", "Other", "Other",
   "a", "b", "c", "d", "e", "f", "g", "h", "i", "j", "k"]

/-! ### Helper lemmas -/

lemma decValue_pos_iff (m : ℤ) (e : ℕ) : 0 < decValue m e ↔ 0 < m := by
  have h : (0 : ℚ) < 10 ^ e := by positivity
  simp [decValue, div_pos_iff, h, h.not_lt, Int.cast_pos]

lemma positiveAmounts_filter (l : List (ℤ × ℕ)) :
    positiveAmounts l = l.filter (fun p => decide (0 < p.1)) := by
  unfold positiveAmounts
  refine List.filter_congr ?_
  intro p _
  simp [decide_eq_decide, decValue_pos_iff]

lemma first_digits_eq_intFilter (debits credits : List (ℤ × ℕ)) :
    first_digits debits credits
      = ((all_amounts debits credits).filter (fun p => decide (0 < p.1))).filterMap
          (fun p => firstDigit? p.1.toNat p.2) := by
  unfold first_digits
  rw [positiveAmounts_filter]

lemma cleanCell_cleanCell (c : Cell) : cleanCell (cleanCell c) = cleanCell c := by
  cases c <;> rfl

lemma msdAux_congr : ∀ f g m : ℕ, 0 < m → m ≤ f → m ≤ g → msdAux f m = msdAux g m := by
  intro f
  induction f with
  | zero => intro g m hm hf _; omega
  | succ f ih =>
    intro g m hm hf hg
    obtain ⟨g', rfl⟩ : ∃ g', g = g' + 1 := ⟨g - 1, by omega⟩
    show (if m < 10 then m else msdAux f (m / 10))
        = (if m < 10 then m else msdAux g' (m / 10))
    by_cases h10 : m < 10
    · simp only [if_pos h10]
    · simp only [if_neg h10]
      have hdiv : m / 10 < m := Nat.div_lt_self hm (by omega)
      exact ih _ _ (Nat.div_pos (by omega) (by omega)) (by omega) (by omega)

lemma msdAux_bounds : ∀ f m : ℕ, 0 < m → m ≤ f → 1 ≤ msdAux f m ∧ msdAux f m < 10 := by
  intro f
  induction f with
  | zero => intro m hm hf; omega
  | succ f ih =>
    intro m hm hf
    show 1 ≤ (if m < 10 then m else msdAux f (m / 10))
        ∧ (if m < 10 then m else msdAux f (m / 10)) < 10
    by_cases h10 : m < 10
    · rw [if_pos h10]; omega
    · rw [if_neg h10]
      have hdiv : m / 10 < m := Nat.div_lt_self hm (by omega)
      exact ih _ (Nat.div_pos (by omega) (by omega)) (by omega)

lemma msd_pos (m : ℕ) (hm : 0 < m) : 1 ≤ msd m := (msdAux_bounds m m hm le_rfl).1

lemma msd_lt_ten (m : ℕ) (hm : 0 < m) : msd m < 10 := (msdAux_bounds m m hm le_rfl).2

lemma msd_of_ge_ten (m : ℕ) (hm : 10 ≤ m) : msd m = msd (m / 10) := by
  obtain ⟨f, rfl⟩ : ∃ f, m = f + 1 := ⟨m - 1, by omega⟩
  show (if f + 1 < 10 then f + 1 else msdAux f ((f + 1) / 10)) = msd ((f + 1) / 10)
  rw [if_neg (by omega)]
  have hdiv : (f + 1) / 10 < f + 1 := Nat.div_lt_self (by omega) (by omega)
  exact msdAux_congr f ((f + 1) / 10) ((f + 1) / 10)
    (Nat.div_pos (by omega) (by omega)) (by omega) le_rfl

lemma msd_mul_ten (m : ℕ) (hm : 0 < m) : msd (10 * m) = msd m := by
  rw [msd_of_ge_ten (10 * m) (by omega), Nat.mul_div_cancel_left m (by omega)]

lemma msd_mul_pow_ten (m k : ℕ) (hm : 0 < m) : msd (m * 10 ^ k) = msd m := by
  induction k with
  | zero => simp
  | succ k ih =>
    have h : m * 10 ^ (k + 1) = 10 * (m * 10 ^ k) := by ring
    rw [h, msd_mul_ten (m * 10 ^ k) (by positivity), ih]

lemma natCharsAux_head : ∀ f m : ℕ, 0 < m → m ≤ f →
    natCharsAux f m ≠ [] ∧ (natCharsAux f m).head? = some (digitChar (msdAux f m)) := by
  intro f
  induction f with
  | zero => intro m hm hf; omega
  | succ f ih =>
    intro m hm hf
    show (if m < 10 then [digitChar m] else natCharsAux f (m / 10) ++ [digitChar (m % 10)]) ≠ []
        ∧ (if m < 10 then [digitChar m]
            else natCharsAux f (m / 10) ++ [digitChar (m % 10)]).head?
          = some (digitChar (if m < 10 then m else msdAux f (m / 10)))
    by_cases h10 : m < 10
    · simp only [if_pos h10]
      exact ⟨by simp, rfl⟩
    · simp only [if_neg h10]
      have hdiv : m / 10 < m := Nat.div_lt_self hm (by omega)
      obtain ⟨hne, hhd⟩ := ih (m / 10) (Nat.div_pos (by omega) (by omega)) (by omega)
      obtain ⟨c, t, hct⟩ := List.exists_cons_of_ne_nil hne
      rw [hct] at hhd ⊢
      simp only [List.head?_cons, Option.some.injEq] at hhd
      exact ⟨by simp, by simp [hhd]⟩

lemma natChars_eq_cons (m : ℕ) (hm : 0 < m) :
    ∃ t, natChars m = digitChar (msd m) :: t := by
  obtain ⟨hne, hhd⟩ := natCharsAux_head m m hm le_rfl
  obtain ⟨c, t, hct⟩ := List.exists_cons_of_ne_nil hne
  refine ⟨t, ?_⟩
  rw [natChars, hct]
  rw [hct] at hhd
  simp only [List.head?_cons, Option.some.injEq] at hhd
  rw [hhd]
  rfl

lemma digitChar_props (k : ℕ) (h1 : 1 ≤ k) (h2 : k < 10) :
    isZeroDot (digitChar k) = false ∧ charDigit? (digitChar k) = some k := by
  interval_cases k <;> exact ⟨rfl, rfl⟩

lemma dropWhile_cons_digit (k : ℕ) (h1 : 1 ≤ k) (h2 : k < 10) (t : List Char) :
    List.dropWhile isZeroDot (digitChar k :: t) = digitChar k :: t := by
  rw [List.dropWhile_cons, (digitChar_props k h1 h2).1]
  simp

lemma dropWhile_replicate_zero (j : ℕ) (l : List Char) :
    List.dropWhile isZeroDot (List.replicate j '0' ++ l) = List.dropWhile isZeroDot l := by
  induction j with
  | zero => simp
  | succ n ih =>
    rw [List.replicate_succ, List.cons_append, List.dropWhile_cons]
    simp [isZeroDot, ih]

/-- The string scan of line 63 recovers the most significant decimal
digit of any positive amount, regardless of where the decimal point
falls. -/
theorem firstDigit?_eq (m e : ℕ) (hm : 0 < m) : firstDigit? m e = some (msd m) := by
  obtain ⟨t, ht⟩ := natChars_eq_cons m hm
  have h1 : 1 ≤ msd m := msd_pos m hm
  have h2 : msd m < 10 := msd_lt_ten m hm
  have hfin : ∀ u : List Char,
      (List.dropWhile isZeroDot (digitChar (msd m) :: u)).head?.bind charDigit?
        = some (msd m) := by
    intro u
    rw [dropWhile_cons_digit (msd m) h1 h2 u]
    simp [(digitChar_props (msd m) h1 h2).2]
  unfold firstDigit? lstripZeroDot pyRepr
  by_cases he : e = 0
  · rw [if_pos he, ht, List.cons_append]
    exact hfin _
  · rw [if_neg he]
    by_cases hlen : e < (natChars m).length
    · rw [if_pos hlen, ht]
      have hlt : e ≤ t.length := by
        rw [ht] at hlen
        simpa using Nat.lt_succ_iff.mp hlen
      have hlen' : (digitChar (msd m) :: t).length - e = (t.length - e) + 1 := by
        simp [Nat.succ_sub hlt]
      rw [hlen', List.take_succ_cons, List.cons_append]
      exact hfin _
    · rw [if_neg hlen]
      rw [List.dropWhile_cons, List.dropWhile_cons]
      norm_num [isZeroDot, dropWhile_replicate_zero]
      rw [ht, dropWhile_cons_digit (msd m) h1 h2 t]
      simp [(digitChar_props (msd m) h1 h2).2]

lemma first_digits_mem (debits credits : List (ℤ × ℕ)) :
    ∀ x ∈ first_digits debits credits, 1 ≤ x ∧ x ≤ 9 := by
  intro x hx
  unfold first_digits at hx
  rw [List.mem_filterMap] at hx
  obtain ⟨p, hp, hfd⟩ := hx
  have hpos : 0 < p.1 := by
    unfold positiveAmounts at hp
    rw [List.mem_filter] at hp
    exact (decValue_pos_iff _ _).1 (of_decide_eq_true hp.2)
  have hm : 0 < p.1.toNat := by omega
  rw [firstDigit?_eq p.1.toNat p.2 hm] at hfd
  have hx' : msd p.1.toNat = x := Option.some_inj.mp hfd
  have hb1 := msd_pos p.1.toNat hm
  have hb2 := msd_lt_ten p.1.toNat hm
  omega

/-! ### Claim theorems -/

/-- C1: for every non-empty Benford sample, the observed frequencies of
digits 1 through 9 sum to exactly 1. -/
theorem observed_freq_sum (debits credits : List (ℤ × ℕ))
    (h : first_digits debits credits ≠ []) :
    ∑ d in Finset.Icc 1 9, observed_freq (first_digits debits credits) d = 1 := by
  have hmem := first_digits_mem debits credits
  set s := first_digits debits credits with hs
  have hn : s.length ≠ 0 := by simpa [List.length_eq_zero] using h
  have hof : ∀ d, observed_freq s d = (s.count d : ℚ) / s.length := by
    intro d
    unfold observed_freq
    by_cases hd : d ∈ s
    · rw [if_pos hd]
    · rw [if_neg hd, List.count_eq_zero_of_not_mem hd]
      simp
  rw [Finset.sum_congr rfl (fun d _ => hof d), ← Finset.sum_div, ← Nat.cast_sum]
  have hcount : ∑ d in Finset.Icc 1 9, Multiset.count d (s : Multiset ℕ)
      = Multiset.card (s : Multiset ℕ) := by
    refine Multiset.sum_count_eq_card ?_
    intro a ha
    rw [Multiset.mem_coe] at ha
    have := hmem a ha
    rw [Finset.mem_Icc]
    omega
  simp only [Multiset.coe_count, Multiset.coe_card] at hcount
  rw [hcount, div_self (by exact_mod_cast hn)]

/-- Witness for C1: the single-amount table with debit 1 has sample `[1]`
and observed frequencies summing to 1. -/
theorem observed_freq_sum_witness :
    ∑ d in Finset.Icc 1 9, observed_freq (first_digits [((1 : ℤ), (0 : ℕ))] []) d = 1 :=
  observed_freq_sum [((1 : ℤ), (0 : ℕ))] [] (by rw [first_digits_eq_intFilter]; decide)

/-- C3: leading-digit extraction is invariant to scale: multiplying a
positive amount `m / 10 ^ e` by any power of ten (shifting the mantissa
or the decimal point) leaves the extracted digit unchanged; in
particular 1.23, 12.3 and 123 all yield leading digit 1. -/
theorem leading_digit_scale_invariant (m e k : ℕ) (hm : 0 < m) :
    firstDigit? (m * 10 ^ k) e = firstDigit? m e
      ∧ firstDigit? m (e + k) = firstDigit? m e
      ∧ firstDigit? 123 2 = some 1 ∧ firstDigit? 123 1 = some 1
      ∧ firstDigit? 123 0 = some 1 := by
  have h1 : 0 < m * 10 ^ k := by positivity
  refine ⟨?_, ?_, by decide, by decide, by decide⟩
  · rw [firstDigit?_eq (m * 10 ^ k) e h1, firstDigit?_eq m e hm, msd_mul_pow_ten m k hm]
  · rw [firstDigit?_eq m (e + k) hm, firstDigit?_eq m e hm]

/-- Witness for C3 at the amount 1.23 scaled by 10. -/
theorem leading_digit_scale_invariant_witness :
    firstDigit? (123 * 10 ^ 1) 2 = firstDigit? 123 2
      ∧ firstDigit? 123 (2 + 1) = firstDigit? 123 2
      ∧ firstDigit? 123 2 = some 1 ∧ firstDigit? 123 1 = some 1
      ∧ firstDigit? 123 0 = some 1 :=
  leading_digit_scale_invariant 123 2 1 (by norm_num)

/-- C8: the numeric-coercion cleaning step is idempotent: coercing the
debit/credit column twice yields the same column as coercing it once. -/
theorem cleaning_idempotent (col : List Cell) :
    cleanColumn (cleanColumn col) = cleanColumn col := by
  simp only [cleanColumn, List.map_map]
  exact List.map_congr_left (fun c _ => cleanCell_cleanCell c)

/-- C6: after cleaning, every Debit/Credit cell is numeric and never
missing; an absent or unparseable value becomes zero rather than an
error. -/
theorem cleaned_cells_numeric (c : Cell) :
    (∃ m e, cleanCell c = Cell.num m e)
      ∧ (to_numeric c = none → cleanCell c = Cell.num 0 0) := by
  refine ⟨⟨(clean_amount c).1, (clean_amount c).2, rfl⟩, fun h => ?_⟩
  simp [cleanCell, clean_amount, h]

/-- Witness for C6: a missing debit cell is cleaned to the numeric
zero cell. -/
theorem cleaned_cells_numeric_witness : cleanCell Cell.missing = Cell.num 0 0 :=
  (cleaned_cells_numeric Cell.missing).2 rfl

/-- C7 counterexample: a debit column holding the numeric amount `-5`
passes through cleaning unchanged, so a cleaned Debit value can be
negative. -/
theorem cleaned_debit_negative :
    cleanColumn [Cell.num (-5) 0] = [Cell.num (-5) 0] ∧ decValue (-5) 0 < 0 := by
  exact ⟨rfl, by norm_num [decValue]⟩

/-- C7 amended: cleaning leaves numeric Debit cells unchanged (it only
coerces and fills missing values; it does not enforce non-negativity). -/
theorem clean_preserves_numeric (m : ℤ) (e : ℕ) :
    cleanCell (Cell.num m e) = Cell.num m e := rfl

/-- C10: the string-cleaning step turns a missing value in an object
column into the literal three-character string "nan", not an empty
string. -/
theorem missing_becomes_nan_string :
    cleanStrCell Cell.missing = ['n', 'a', 'n']
      ∧ cleanStrCell Cell.missing ≠ []
      ∧ (cleanStrCell Cell.missing).length = 3 := by
  decide

/-- C4: the three-row scenario: cleaned debits are `[100, 0, 0]`,
cleaned credits `[0, -50, 25]`, and the pooled Benford leading-digit
sample is `[1, 5, 2]`. -/
theorem scenario_clean_and_sample :
    (columnValues [Cell.num 1000 1, Cell.num 0 0, Cell.str ['a', 'b', 'c']]).map
        (fun p => decValue p.1 p.2) = [100, 0, 0]
      ∧ (columnValues [Cell.num 0 0, Cell.num (-500) 1, Cell.num 250 1]).map
        (fun p => decValue p.1 p.2) = [0, -50, 25]
      ∧ first_digits (columnValues [Cell.num 1000 1, Cell.num 0 0, Cell.str ['a', 'b', 'c']])
        (columnValues [Cell.num 0 0, Cell.num (-500) 1, Cell.num 250 1]) = [1, 5, 2] := by
  have hd : columnValues [Cell.num 1000 1, Cell.num 0 0, Cell.str ['a', 'b', 'c']]
      = [(1000, 1), (0, 0), (0, 0)] := by decide
  have hc : columnValues [Cell.num 0 0, Cell.num (-500) 1, Cell.num 250 1]
      = [(0, 0), (-500, 1), (250, 1)] := by decide
  refine ⟨?_, ?_, ?_⟩
  · rw [hd]; norm_num [decValue]
  · rw [hc]; norm_num [decValue]
  · rw [hd, hc, first_digits_eq_intFilter]; decide

/-- C2: the expected frequency computed for digit `d` is
`log10 (1 + 1/d)`; the expected frequency for digit 1 is approximately
0.301, and expected frequencies strictly decrease from digit 1 to 9. -/
theorem expected_freq_benford (d : ℕ) (h1 : 1 ≤ d) (h9 : d ≤ 9) :
    expected_freq d = Real.logb 10 (1 + 1 / (d : ℝ))
      ∧ |expected_freq 1 - 301 / 1000| < 1 / 1000
      ∧ ∀ e : ℕ, d < e → e ≤ 9 → expected_freq e < expected_freq d := by
  refine ⟨rfl, ?_, ?_⟩
  · have hone : expected_freq 1 = Real.logb 10 2 := by
      norm_num [expected_freq]
    have hlog10 : 0 < Real.log 10 := Real.log_pos (by norm_num)
    have hlow : (3 : ℝ) / 10 < Real.logb 10 2 := by
      have hl : Real.log 1000 < Real.log 1024 := Real.log_lt_log (by norm_num) (by norm_num)
      have e1 : (1000 : ℝ) = 10 ^ (3 : ℕ) := by norm_num
      have e2 : (1024 : ℝ) = 2 ^ (10 : ℕ) := by norm_num
      rw [e1, e2, Real.log_pow, Real.log_pow] at hl
      push_cast at hl
      rw [Real.logb, div_lt_div_iff (by norm_num) hlog10]
      linarith
    have hhigh : Real.logb 10 2 < 302 / 1000 := by
      have hl : Real.log (2 ^ (1000 : ℕ)) < Real.log (10 ^ (302 : ℕ)) :=
        Real.log_lt_log (by positivity) (by norm_num)
      rw [Real.log_pow, Real.log_pow] at hl
      push_cast at hl
      rw [Real.logb, div_lt_div_iff hlog10 (by norm_num)]
      linarith
    rw [hone, abs_lt]
    constructor <;> linarith
  · intro e hde he9
    unfold expected_freq
    have hd0 : (0 : ℝ) < d := by exact_mod_cast Nat.lt_of_lt_of_le Nat.zero_lt_one h1
    have hde' : (d : ℝ) < e := by exact_mod_cast hde
    have hinv : 1 / (e : ℝ) < 1 / (d : ℝ) := one_div_lt_one_div_of_lt hd0 hde'
    have he0 : (0 : ℝ) < e := lt_trans hd0 hde'
    apply Real.logb_lt_logb (by norm_num)
    · positivity
    · linarith

/-- Witness for C2 at digits 1 and 2. -/
theorem expected_freq_benford_witness :
    |expected_freq 1 - 301 / 1000| < 1 / 1000 ∧ expected_freq 2 < expected_freq 1 :=
  ⟨(expected_freq_benford 1 (by norm_num) (by norm_num)).2.1,
   (expected_freq_benford 1 (by norm_num) (by norm_num)).2.2 2 (by norm_num) (by norm_num)⟩

/-- C9 counterexample: with a top-ten source literally named "Other",
the label assignment of line 102 overwrites that source's count instead
of appending a new slice, so the plotted total (11) falls short of the
row count (16) and the plotted data is not the ten largest counts plus
an appended "Other" entry. -/
theorem pie_chart_other_collision :
    10 < (source_counts sourcesWithOtherName).length
      ∧ sourcesWithOtherName.length = 16
      ∧ ((plot_data sourcesWithOtherName).map Prod.snd).sum = 11
      ∧ plot_data sourcesWithOtherName
          ≠ (source_counts sourcesWithOtherName).take 10
            ++ [("Other",
                (((source_counts sourcesWithOtherName).drop 10).map Prod.snd).sum)] := by
  decide

/-- C9 amended: with more than ten distinct sources the program plots
the ten largest counts and assigns the label "Other" the sum of the
remaining counts; when no top-ten source is itself named "Other" this
appends the entry and the plotted total equals the row count (with a
top-ten source literally named "Other", its count is overwritten
instead); with at most ten distinct sources the full frequency table is
plotted unchanged. -/
theorem pie_chart_top10_amended (srcs : List String) :
    (10 < (source_counts srcs).length →
        plot_data srcs
            = setLabel ((source_counts srcs).take 10) "Other"
              ((((source_counts srcs).drop 10).map Prod.snd).sum)
          ∧ (∀ p ∈ (source_counts srcs).take 10,
              ∀ q ∈ (source_counts srcs).drop 10, q.2 ≤ p.2)
          ∧ (((source_counts srcs).take 10).any (fun p => p.1 == "Other") = false →
              plot_data srcs = (source_counts srcs).take 10
                  ++ [("Other", (((source_counts srcs).drop 10).map Prod.snd).sum)]
                ∧ ((plot_data srcs).map Prod.snd).sum = srcs.length))
      ∧ ((source_counts srcs).length ≤ 10 →
          plot_data srcs = source_counts srcs
            ∧ ((plot_data srcs).map Prod.snd).sum = srcs.length) := by
  have hsum : ((source_counts srcs).map Prod.snd).sum = srcs.length := by
    have hperm : List.Perm (source_counts srcs)
        ((srcs.dedup).map (fun s => (s, srcs.count s))) :=
      List.perm_insertionSort cntGE _
    have hs : ((source_counts srcs).map Prod.snd).sum
        = (((srcs.dedup).map (fun s => (s, srcs.count s))).map Prod.snd).sum :=
      (hperm.map Prod.snd).sum_eq
    rw [hs, List.map_map]
    simpa [Function.comp] using List.sum_map_count_dedup_eq_length srcs
  have hsorted : List.Sorted cntGE (source_counts srcs) :=
    List.sorted_insertionSort cntGE _
  refine ⟨fun hgt => ⟨?_, ?_, fun hno => ?_⟩, fun hle => ⟨?_, ?_⟩⟩
  · unfold plot_data
    rw [if_pos hgt]
  · intro p hp q hq
    exact hsorted.rel_of_mem_take_of_mem_drop hp hq
  · have hpd : plot_data srcs = (source_counts srcs).take 10
        ++ [("Other", (((source_counts srcs).drop 10).map Prod.snd).sum)] := by
      unfold plot_data setLabel
      rw [if_pos hgt, if_neg (by simp [hno])]
    refine ⟨hpd, ?_⟩
    have hsplit : ((source_counts srcs).map Prod.snd).sum
        = (((source_counts srcs).take 10).map Prod.snd).sum
          + (((source_counts srcs).drop 10).map Prod.snd).sum := by
      conv_lhs => rw [← List.take_append_drop 10 (source_counts srcs)]
      rw [List.map_append, List.sum_append]
    rw [hpd, List.map_append, List.sum_append]
    simp only [List.map_cons, List.map_nil, List.sum_cons, List.sum_nil]
    omega
  · unfold plot_data
    rw [if_neg (by omega)]
  · have hpd : plot_data srcs = source_counts srcs := by
      unfold plot_data
      rw [if_neg (by omega)]
    rw [hpd]
    exact hsum

/-- Witness for C9 on a table of eleven distinct sources, none of them
named "Other". -/
theorem pie_chart_top10_amended_witness :
    plot_data ["a", "b", "c", "d", "e", "f", "g", "h", "i", "j", "k"]
        = (source_counts ["a", "b", "c", "d", "e", "f", "g", "h", "i", "j", "k"]).take 10
          ++ [("Other", (((source_counts
              ["a", "b", "c", "d", "e", "f", "g", "h", "i", "j", "k"]).drop 10).map
                Prod.snd).sum)]
      ∧ ((plot_data ["a", "b", "c", "d", "e", "f", "g", "h", "i", "j", "k"]).map
          Prod.snd).sum = 11 :=
  ((pie_chart_top10_amended ["a", "b", "c", "d", "e", "f", "g", "h", "i", "j", "k"]).1
      (by decide)).2.2 (by decide)

/-- C5: an all-zero amounts table yields an empty Benford sample and the
program still terminates normally, but instead of the explicit "no data"
report the spec requires it writes the ordinary per-digit table with
every observed frequency zero. -/
theorem empty_sample_report :
    first_digits [((0 : ℤ), (0 : ℕ)), (0, 2)] [(0, 0), (0, 1)] = []
      ∧ first_digits [((-5 : ℤ), (0 : ℕ))] [] = []
      ∧ codeBenfordReport [] =
          some [(1, 0), (2, 0), (3, 0), (4, 0), (5, 0), (6, 0), (7, 0), (8, 0), (9, 0)]
      ∧ specBenfordReport [] = none
      ∧ codeBenfordReport [] ≠ specBenfordReport [] := by
  refine ⟨?_, ?_, ?_, rfl, ?_⟩
  · rw [first_digits_eq_intFilter]; rfl
  · rw [first_digits_eq_intFilter]; rfl
  · rfl
  · simp [codeBenfordReport, specBenfordReport]

end AnalyzeJE
